import Mathlib

/-!
# Verification of the blocksage-cpp region-decoder core

A shallow embedding of the decoder pipeline of the repository:
the bounds-checked byte cursor (src/include/byte_buffer.h), the recursive
NBT tag parser (src/src/nbt_parser.cpp), the bit-unpacking and section
processing of the region reader (src/src/region_reader.cpp), the region
grid query (src/src/region.cpp), and the orchestrator loop of
RegionReader::getRegion.  Machine integers are modelled as Nat/Int with
explicit reductions modulo 2^w where C++ unsigned wraparound matters;
C++ exceptions become an explicit error type; C++ undefined behaviour
(out-of-range vector indexing, a shift by the full width of the type)
is modelled by a distinguished error/none outcome.
-/

/-- Error outcomes.  The source signals errors with C++ exceptions:
std::out_of_range (byte_buffer.h, region_reader.cpp:365),
std::runtime_error for the NBT depth guard (nbt_parser.cpp:6) and the root
check (nbt_parser.cpp:97), std::invalid_argument for a bad bit length
(region_reader.cpp:191), std::runtime_error for an unsupported compression
scheme (region_reader.cpp:224), and std::length_error from constructing
or resizing a vector/string whose requested length exceeds max_size —
the fate of every read size large enough to wrap the size_t bounds
check of byte_buffer.h, since such a size is at least 2^64 minus the
current position.  outOfFuel is an artifact of the embedding: the fuel
parameter bounds the recursion of the parser, and every theorem
supplies sufficient fuel.  undefinedBehavior marks executions that are
undefined in the C++ source (the mask computation 1ULL << bitLength at
bitLength = 64 in processSection, a shift by the full width of the
type). -/
inductive Err where
  | outOfRange
  | depthExceeded
  | invalidRoot
  | invalidArgument
  | unsupportedCompression
  | lengthError
  | outOfFuel
  | undefinedBehavior
deriving DecidableEq, Repr


/-- Decidable equality on Except results, used to evaluate the
definitions on concrete inputs. -/
instance {ε α : Type} [DecidableEq ε] [DecidableEq α] : DecidableEq (Except ε α) := fun a b =>
  match a, b with
  | .ok x, .ok y =>
      if h : x = y then .isTrue (by rw [h]) else .isFalse (by intro hc; cases hc; exact h rfl)
  | .error e, .error f =>
      if h : e = f then .isTrue (by rw [h]) else .isFalse (by intro hc; cases hc; exact h rfl)
  | .ok _, .error _ => .isFalse (by intro hc; cases hc)
  | .error _, .ok _ => .isFalse (by intro hc; cases hc)

/- Constants from src/include/config.h, src/include/nbt_parser.h and
src/src/region_reader.cpp. -/

def N_CHUNKS_PER_REGION_XZ : Nat := 32
def CHUNK_SIZE_Y : Nat := 384
def SECTION_SIZE : Nat := 16
def N_SECTIONS_PER_CHUNK_Y : Nat := CHUNK_SIZE_Y / SECTION_SIZE
def MIN_Y : Int := -64
def MAX_NBT_DEPTH : Nat := 512
def ZLIB_COMPRESSION_TYPE : Nat := 2
def OFFSET_SHIFT : Nat := 8
def SECTOR_BYTES : Nat := 4096
def SECTOR_COUNT_MASK : Nat := 0xFF
def TOTAL_SECTION_BLOCKS : Nat := SECTION_SIZE * SECTION_SIZE * SECTION_SIZE

/-- The width of size_t on the target platform (64-bit). -/
def SIZE_T_MOD : Nat := 2 ^ 64

/-!
## ByteBuffer (src/include/byte_buffer.h)

data_ is an immutable byte vector (bytes as Nat < 256), position_ a
mutable read position.  Each operation returns its result (or error)
together with the post-state of the buffer; a throwing operation leaves
the buffer untouched, as in the source, where the exception is raised
before position_ is modified.
-/

structure ByteBuffer where
  data : List Nat
  pos : Nat
deriving DecidableEq, Repr

/-- seek (byte_buffer.h:15-20): fails if position > data_.size(). -/
def ByteBuffer.seek (b : ByteBuffer) (position : Nat) : Except Err Unit × ByteBuffer :=
  if position > b.data.length then (.error .outOfRange, b)
  else (.ok (), { b with pos := position })

/-- read(size_t size) (byte_buffer.h:61-71).  The C++ guard is
position_ + size > data_.size() computed in size_t arithmetic, so the
addition wraps modulo 2^64 and a size large enough to wrap bypasses the
guard.  For such a size the next line, std::vector&lt;char&gt; result(size),
runs before any memcpy, and since a wrapping size is at least
2^64 - position_ it exceeds max_size, so the constructor throws
std::length_error — a defined failure that leaves the position
unmutated.  (readString and readByteArray construct a string/vector of
the same length first, with the same outcome.) -/
def ByteBuffer.readRaw (b : ByteBuffer) (size : Nat) : Except Err (List Nat) × ByteBuffer :=
  if (b.pos + size) % SIZE_T_MOD > b.data.length then (.error .outOfRange, b)
  else if b.pos + size ≤ b.data.length then
    (.ok ((b.data.drop b.pos).take size), { b with pos := b.pos + size })
  else (.error .lengthError, b)

/-- readString(size_t length) (byte_buffer.h:73-82): same bytes, same
guard, the bytes re-interpreted as a std::string (no encoding
validation); we keep the raw byte list. -/
def ByteBuffer.readString (b : ByteBuffer) (length : Nat) : Except Err (List Nat) × ByteBuffer :=
  b.readRaw length

/-- Two's-complement reinterpretation of a byte as int8_t. -/
def byteToInt8 (n : Nat) : Int :=
  if n < 128 then (n : Int) else (n : Int) - 256

/-- readByteArray(size_t length) (byte_buffer.h:95-105): raw bytes
reinterpreted as int8_t. -/
def ByteBuffer.readByteArray (b : ByteBuffer) (length : Nat) :
    Except Err (List Int) × ByteBuffer :=
  match b.readRaw length with
  | (.ok bytes, b') => (.ok (bytes.map byteToInt8), b')
  | (.error e, b') => (.error e, b')

/-- Big-endian value of a byte list. -/
def beValue (bytes : List Nat) : Nat :=
  bytes.foldl (fun a b => a * 256 + b) 0

/-- read&lt;T&gt;() (byte_buffer.h:22-59) for an unsigned integral T of
sizeof(T) = size bytes: memcpy of the host-endian value followed by the
explicit byte swap, i.e. a big-endian read on the little-endian target.
Same single bounds check as readRaw. -/
def ByteBuffer.readFixed (b : ByteBuffer) (size : Nat) : Except Err Nat × ByteBuffer :=
  match b.readRaw size with
  | (.ok bytes, b') => (.ok (beValue bytes), b')
  | (.error e, b') => (.error e, b')

/-- Two's-complement reinterpretation of a width-size big-endian value as
the signed integral type of the same width. -/
def toSigned (size : Nat) (v : Nat) : Int :=
  if v < 2 ^ (8 * size - 1) then (v : Int) else (v : Int) - 2 ^ (8 * size)

/-- read&lt;T&gt;() for a signed integral T (int8_t, int16_t, int32_t,
int64_t as used by the NBT parser). -/
def ByteBuffer.readFixedS (b : ByteBuffer) (size : Nat) : Except Err Int × ByteBuffer :=
  match b.readFixed size with
  | (.ok v, b') => (.ok (toSigned size v), b')
  | (.error e, b') => (.error e, b')

/- Except-valued wrappers used by the parser, which never reuses a buffer
after a read failed (C++ propagates the exception). -/

def ByteBuffer.readFixedE (b : ByteBuffer) (size : Nat) : Except Err (Nat × ByteBuffer) :=
  match b.readFixed size with
  | (.ok v, b') => .ok (v, b')
  | (.error e, _) => .error e

def ByteBuffer.readFixedSE (b : ByteBuffer) (size : Nat) : Except Err (Int × ByteBuffer) :=
  match b.readFixedS size with
  | (.ok v, b') => .ok (v, b')
  | (.error e, _) => .error e

def ByteBuffer.readStringE (b : ByteBuffer) (length : Nat) : Except Err (List Nat × ByteBuffer) :=
  match b.readString length with
  | (.ok v, b') => .ok (v, b')
  | (.error e, _) => .error e

def ByteBuffer.readRawE (b : ByteBuffer) (size : Nat) : Except Err (List Nat × ByteBuffer) :=
  match b.readRaw size with
  | (.ok v, b') => .ok (v, b')
  | (.error e, _) => .error e

def ByteBuffer.readByteArrayE (b : ByteBuffer) (length : Nat) :
    Except Err (List Int × ByteBuffer) :=
  match b.readByteArray length with
  | (.ok v, b') => .ok (v, b')
  | (.error e, _) => .error e

/-- Conversion of a signed C++ integer to size_t (modulo 2^64), as
happens when an int32_t length is passed to a size_t parameter. -/
def sizeT (i : Int) : Nat := (i % (SIZE_T_MOD : Int)).toNat

/-!
## Bit-unpacking (RegionReader::processSection, region_reader.cpp:187-210)
-/

/-- The inner loop of processSection (region_reader.cpp:200-207): for
each loop index i < indicesPerLong, push the i-th bitLength-wide field
of value (least significant bits first) while fewer than
TOTAL_SECTION_BLOCKS indices have been produced.  The pushed value is
masked and then stored into a uint16_t, i.e. additionally reduced
modulo 2^16.  (The C++ loop exits as soon as the size cap is reached;
iterating on with the condition false is a no-op, so the fold below is
the same loop.) -/
def processWord (value bitLength mask indicesPerLong : Nat) (result : List Nat) :
    List Nat :=
  (List.range indicesPerLong).foldl
    (fun res i =>
      if res.length < TOTAL_SECTION_BLOCKS then
        res ++ [((value >>> (i * bitLength)) &&& mask) % 2 ^ 16]
      else res)
    result

/-- RegionReader::processSection (region_reader.cpp:187-210).  data models
the vector of uint64_t words (values < 2^64); bitLength is the int
parameter (the guard rejects bitLength <= 0 and > 64; we take a Nat, so
only 0 is rejected below, negative arguments being unrepresentable).
mask models (1ULL << bitLength) - 1, the defined value 2^bitLength - 1
for bitLength in 1..63.  The guard admits bitLength = 64, but there the
shift is by the full width of the type — undefined behaviour in C++
(x86-64 hardware masks the count and would yield mask 0) — so that case
is a distinguished undefinedBehavior outcome, not an unpacking. -/
def processSection (data : List Nat) (bitLength : Nat) : Except Err (List Nat) :=
  if bitLength ≤ 0 ∨ bitLength > 64 then .error .invalidArgument
  else if bitLength = 64 then .error .undefinedBehavior
  else
    let indicesPerLong := 64 / bitLength
    let mask := 2 ^ bitLength - 1
    .ok (data.foldl (fun result value => processWord value bitLength mask indicesPerLong result) [])

/-- ceil(log2 n): the smallest k with n <= 2^k, as an executable
structural definition (every palette size fits far below 2^64, where
this agrees with the double-precision log2/ceil of the source; log2(0)
is undefined in the source — an empty palette with a data array — and
modelled as 0 here). -/
def ceilLog2 (n : Nat) : Nat :=
  (((List.range 65).filter fun k => n ≤ 2 ^ k).headD 64)

/-- The palette bit width of region_reader.cpp:326:
max(4, int(ceil(log2(palette.size())))). -/
def sectionBitLength (paletteSize : Nat) : Nat :=
  max 4 (ceilLog2 paletteSize)

/-!
## NBT tag values

The source NBTTag (nbt_parser.h:29-48) carries a name, a numeric type and
one active payload.  Names and strings are raw byte lists (std::string
holds the undecoded bytes).  A compound stores name-keyed children;
a list stores the unnamed child payloads.  noneV is the absent payload
(TagEnd, a type code matched by no switch case, or the value-initialized
default from unordered_map::operator[]).
-/

inductive NBTValue : Type where
  | noneV
  | byteV (v : Int)
  | shortV (v : Int)
  | intV (v : Int)
  | longV (v : Int)
  | floatV (raw : List Nat)
  | doubleV (raw : List Nat)
  | byteArrayV (l : List Int)
  | stringV (s : List Nat)
  | listV (l : List NBTValue)
  | compoundV (m : List (List Nat × NBTValue))
  | intArrayV (l : List Int)
  | longArrayV (l : List Nat)

/-- A parsed tag: its name, numeric type code (as read from the input,
an int since a list element type comes from an int8_t) and payload. -/
structure NBTTag where
  name : List Nat
  type : Int
  value : NBTValue

/-- compoundValue[name] = tag (nbt_parser.cpp:69): last write wins on a
duplicate name. -/
def insertCompound (m : List (List Nat × NBTValue)) (k : List Nat) (v : NBTValue) :
    List (List Nat × NBTValue) :=
  match m with
  | [] => [(k, v)]
  | (k', v') :: rest =>
      if k' = k then (k, v) :: rest else (k', v') :: insertCompound rest k v

/-- unordered_map::operator[] on a compound: the stored child, or a
value-initialized default when the name is absent. -/
def compoundGet (m : List (List Nat × NBTValue)) (k : List Nat) : NBTValue :=
  match m with
  | [] => .noneV
  | (k', v') :: rest => if k' = k then v' else compoundGet rest k

/-- Reading a vector of count unsigned big-endian values of the given
byte width (the loops of nbt_parser.cpp:76-78 and 84-86, and
readVector). -/
def readFixedVec (b : ByteBuffer) (size : Nat) : Nat → Except Err (List Nat × ByteBuffer)
  | 0 => .ok ([], b)
  | count + 1 =>
    match b.readFixedE size with
    | .error e => .error e
    | .ok (v, b') =>
      match readFixedVec b' size count with
      | .error e => .error e
      | .ok (vs, b'') => .ok (v :: vs, b'')

/-- Signed variant (int32_t elements of a TagIntArray). -/
def readFixedSVec (b : ByteBuffer) (size : Nat) : Nat → Except Err (List Int × ByteBuffer)
  | 0 => .ok ([], b)
  | count + 1 =>
    match b.readFixedSE size with
    | .error e => .error e
    | .ok (v, b') =>
      match readFixedSVec b' size count with
      | .error e => .error e
      | .ok (vs, b'') => .ok (v :: vs, b'')

/-- The name-prefix read of parseTag (nbt_parser.cpp:12-21): two uint8_t
reads combined big-endian; a zero length yields the empty name with no
further read. -/
def readTagName (b : ByteBuffer) : Except Err (List Nat × ByteBuffer) :=
  match b.readFixedE 1 with
  | .error e => .error e
  | .ok (n1, b1) =>
    match b1.readFixedE 1 with
    | .error e => .error e
    | .ok (n2, b2) =>
      let nameLength := n1 * 256 + n2
      if nameLength = 0 then .ok ([], b2)
      else b2.readStringE nameLength

/-!
## NBTParser::parseTag / parseNBT (src/src/nbt_parser.cpp)

The recursion of the C++ parser terminates on finite input because every
loop iteration consumes input; the Lean embedding makes this explicit
with a fuel parameter decremented on every recursive call and every
compound-loop iteration.  Every theorem about the parser supplies enough
fuel, so the outOfFuel outcome never arises in any statement below.
-/

mutual

/-- NBTParser::parseTag (nbt_parser.cpp:4-92).  The depth guard
(lines 5-7) runs first; then the optional name read (lines 12-21); then
the switch on the numeric type code (lines 23-89).  A type code matched
by no case (13 and above, or negative) reads no payload, as in the C++
switch without a default. -/
def parseTag (fuel : Nat) (buffer : ByteBuffer) (type : Int) (named : Bool)
    (currentDepth : Nat) : Except Err (NBTTag × ByteBuffer) :=
  match fuel with
  | 0 => .error .outOfFuel
  | fuel + 1 =>
    if currentDepth > MAX_NBT_DEPTH then .error .depthExceeded
    else
      match (if named then readTagName buffer else .ok ([], buffer)) with
      | .error e => .error e
      | .ok (name, b0) =>
        if type = 0 then .ok (⟨name, type, .noneV⟩, b0)
        else if type = 1 then
          match b0.readFixedSE 1 with
          | .error e => .error e
          | .ok (v, b1) => .ok (⟨name, type, .byteV v⟩, b1)
        else if type = 2 then
          match b0.readFixedSE 2 with
          | .error e => .error e
          | .ok (v, b1) => .ok (⟨name, type, .shortV v⟩, b1)
        else if type = 3 then
          match b0.readFixedSE 4 with
          | .error e => .error e
          | .ok (v, b1) => .ok (⟨name, type, .intV v⟩, b1)
        else if type = 4 then
          match b0.readFixedSE 8 with
          | .error e => .error e
          | .ok (v, b1) => .ok (⟨name, type, .longV v⟩, b1)
        else if type = 5 then
          match b0.readRawE 4 with
          | .error e => .error e
          | .ok (raw, b1) => .ok (⟨name, type, .floatV raw⟩, b1)
        else if type = 6 then
          match b0.readRawE 8 with
          | .error e => .error e
          | .ok (raw, b1) => .ok (⟨name, type, .doubleV raw⟩, b1)
        else if type = 7 then
          match b0.readFixedSE 4 with
          | .error e => .error e
          | .ok (len, b1) =>
            match b1.readByteArrayE (sizeT len) with
            | .error e => .error e
            | .ok (arr, b2) => .ok (⟨name, type, .byteArrayV arr⟩, b2)
        else if type = 8 then
          match b0.readFixedSE 2 with
          | .error e => .error e
          | .ok (len, b1) =>
            match b1.readStringE (sizeT len) with
            | .error e => .error e
            | .ok (s, b2) => .ok (⟨name, type, .stringV s⟩, b2)
        else if type = 9 then
          match b0.readFixedSE 1 with
          | .error e => .error e
          | .ok (listType, b1) =>
            match b1.readFixedSE 4 with
            | .error e => .error e
            | .ok (listLength, b2) =>
              match parseListElems fuel b2 listType listLength.toNat currentDepth with
              | .error e => .error e
              | .ok (elems, b3) => .ok (⟨name, type, .listV elems⟩, b3)
        else if type = 10 then
          match parseCompoundEntries fuel b0 currentDepth [] with
          | .error e => .error e
          | .ok (m, b1) => .ok (⟨name, type, .compoundV m⟩, b1)
        else if type = 11 then
          match b0.readFixedSE 4 with
          | .error e => .error e
          | .ok (len, b1) =>
            if len < 0 then .error .lengthError
            else
              match readFixedSVec b1 4 len.toNat with
              | .error e => .error e
              | .ok (arr, b2) => .ok (⟨name, type, .intArrayV arr⟩, b2)
        else if type = 12 then
          match b0.readFixedE 4 with
          | .error e => .error e
          | .ok (len, b1) =>
            match readFixedVec b1 8 len with
            | .error e => .error e
            | .ok (arr, b2) => .ok (⟨name, type, .longArrayV arr⟩, b2)
        else .ok (⟨name, type, .noneV⟩, b0)
termination_by (fuel, 0)
decreasing_by all_goals (simp_wf; omega)

/-- The list loop (nbt_parser.cpp:57-59): listLength unnamed children of
the homogeneous element type, each at currentDepth + 1 (a negative
int32_t count runs zero iterations). -/
def parseListElems (fuel : Nat) (buffer : ByteBuffer) (listType : Int) (count : Nat)
    (currentDepth : Nat) : Except Err (List NBTValue × ByteBuffer) :=
  match count with
  | 0 => .ok ([], buffer)
  | count + 1 =>
    match parseTag fuel buffer listType false (currentDepth + 1) with
    | .error e => .error e
    | .ok (t, b1) =>
      match parseListElems fuel b1 listType count currentDepth with
      | .error e => .error e
      | .ok (ts, b2) => .ok (t.value :: ts, b2)
termination_by (fuel, count + 1)
decreasing_by all_goals (simp_wf; omega)

/-- The compound loop (nbt_parser.cpp:63-70): read a type code, stop on
TagEnd, otherwise parse a named child at currentDepth + 1 and store it
keyed by name (last write wins). -/
def parseCompoundEntries (fuel : Nat) (buffer : ByteBuffer) (currentDepth : Nat)
    (m : List (List Nat × NBTValue)) : Except Err (List (List Nat × NBTValue) × ByteBuffer) :=
  match fuel with
  | 0 => .error .outOfFuel
  | fuel + 1 =>
    match buffer.readFixedE 1 with
    | .error e => .error e
    | .ok (compoundType, b1) =>
      if compoundType = 0 then .ok (m, b1)
      else
        match parseTag fuel b1 (compoundType : Int) true (currentDepth + 1) with
        | .error e => .error e
        | .ok (child, b2) => parseCompoundEntries fuel b2 currentDepth (insertCompound m child.name child.value)
termination_by (fuel, 1)
decreasing_by all_goals (simp_wf; omega)

end

/-- NBTParser::parseNBT (nbt_parser.cpp:94-101): one root type byte,
which must be TagCompound, then the root parsed as a named tag at
depth 0 (the default arguments of parseTag). -/
def parseNBT (fuel : Nat) (buffer : ByteBuffer) : Except Err (NBTTag × ByteBuffer) :=
  match buffer.readFixedE 1 with
  | .error e => .error e
  | .ok (rootType, b1) =>
    if rootType ≠ 10 then .error .invalidRoot
    else parseTag fuel b1 10 true 0

/-!
## Region data model (src/include/config.h, src/include/region.h)

Nested std::vector layers: a section line is 16 block IDs (Z), a plane 16
lines (Y), a section 16 planes (X), a chunk 24 sections, a chunk line 32
chunks, a region 32 chunk lines.  0xFFFF is the missing-section sentinel.
-/

abbrev SectionLineData := List Nat
abbrev SectionPlaneData := List SectionLineData
abbrev SectionData := List SectionPlaneData
abbrev ChunkData := List SectionData
abbrev ChunkLineData := List ChunkData
abbrev RegionData := List ChunkLineData

/-- The all-sentinel initial structures of region_reader.cpp:265-272 and
377-388. -/
def initialSectionLine : SectionLineData := List.replicate SECTION_SIZE 0xFFFF

def initialSectionPlane : SectionPlaneData := List.replicate SECTION_SIZE initialSectionLine

def initialSection : SectionData := List.replicate SECTION_SIZE initialSectionPlane

def initialChunk : ChunkData := List.replicate N_SECTIONS_PER_CHUNK_Y initialSection

def initialChunkLine : ChunkLineData := List.replicate N_CHUNKS_PER_REGION_XZ initialChunk

def initialRegionData : RegionData := List.replicate N_CHUNKS_PER_REGION_XZ initialChunkLine

/-- std::vector indexing by a C++ int converted to size_t, without any
bounds check: an index outside [0, length) is undefined behaviour,
modelled as none (a negative int converts to an enormous size_t). -/
def vecIdx {α : Type} (l : List α) (i : Int) : Option α :=
  if 0 ≤ i then l.get? i.toNat else none

/-- Region::getBlockAt (region.cpp:19-33): C++ integer division and
remainder truncate toward zero; the six vector accesses
data[sx][sz][sy][dx][dy][dz] carry no bounds checks. -/
def getBlockAt (data : RegionData) (x y z : Int) : Option Nat :=
  let sx := x.tdiv (SECTION_SIZE : Int)
  let sy := y.tdiv (SECTION_SIZE : Int)
  let sz := z.tdiv (SECTION_SIZE : Int)
  let dx := x.tmod (SECTION_SIZE : Int)
  let dy := y.tmod (SECTION_SIZE : Int)
  let dz := z.tmod (SECTION_SIZE : Int)
  (vecIdx data sx).bind fun line =>
    (vecIdx line sz).bind fun chunk =>
      (vecIdx chunk sy).bind fun plane =>
        (vecIdx plane dx).bind fun row =>
          (vecIdx row dy).bind fun cell =>
            vecIdx cell dz

/-!
## RegionReader chunk processing (src/src/region_reader.cpp)
-/

/-- The chunk-local-to-region coordinates of region_reader.cpp:277-278:
xPos % N_CHUNKS_PER_REGION_XZ and zPos % N_CHUNKS_PER_REGION_XZ with the
C++ % operator, whose result is the truncated remainder (sign of the
dividend). -/
def chunkRegionCoords (xPos zPos : Int) : Int × Int :=
  (xPos.tmod (N_CHUNKS_PER_REGION_XZ : Int), zPos.tmod (N_CHUNKS_PER_REGION_XZ : Int))

/-- The per-section block-index computation of region_reader.cpp:319-328.
The outer declaration fills flatSectionBlockIndices with 4096 zeros; when
the data tag is a TagLongArray the source line 327 declares a NEW inner
vector for the result of processSection, shadowing the outer one, so the
unpacked indices are discarded and the outer all-zero vector is what the
subsequent resolution loop (line 332) iterates.  An error thrown by
processSection still propagates. -/
def usedSectionBlockIndices (sectionData : NBTValue) (palette : List (List Nat)) :
    Except Err (List Nat) :=
  let flatSectionBlockIndices : List Nat := List.replicate TOTAL_SECTION_BLOCKS 0
  match sectionData with
  | .longArrayV arr =>
      let bit_length := sectionBitLength palette.length
      match processSection arr bit_length with
      | .error e => .error e
      | .ok _shadowedInnerResult => .ok flatSectionBlockIndices
  | _ => .ok flatSectionBlockIndices

/-- A decoded chunk as returned by RegionReader::readAndProcessChunk
(region_reader.cpp:354): region-local x, region-local z, world chunk x,
world chunk z, and the chunk grid. -/
abbrev ChunkResult := Int × Int × Int × Int × ChunkData

/-- The write data[chunkXRegion][chunkZRegion] = chunkBlocks of
region_reader.cpp:454: unchecked vector writes, undefined behaviour
(none) when either index is outside the 32-entry vectors. -/
def setChunk (data : RegionData) (cx cz : Int) (blocks : ChunkData) : Option RegionData :=
  if 0 ≤ cx ∧ 0 ≤ cz then
    match data.get? cx.toNat with
    | some line =>
        if cz.toNat < line.length then some (data.set cx.toNat (line.set cz.toNat blocks))
        else none
    | none => none
  else none

/-- The join/collect loop of RegionReader::getRegion
(region_reader.cpp:444-467): each future is awaited in dispatch order; a
throwing chunk is caught (logged) and skipped; a successful chunk is
written to its region-local slot, and while either stored origin
coordinate is still -1 the origin is (re)derived as
chunkWorld - chunkRegion * SECTION_SIZE per axis (lines 457-461). -/
def collectChunkResults : List (Except Err ChunkResult) → RegionData → Int → Int →
    Option (RegionData × Int × Int)
  | [], data, regionXWorld, regionZWorld => some (data, regionXWorld, regionZWorld)
  | r :: rest, data, regionXWorld, regionZWorld =>
    match r with
    | .error _ => collectChunkResults rest data regionXWorld regionZWorld
    | .ok (chunkXRegion, chunkZRegion, chunkXWorld, chunkZWorld, chunkBlocks) =>
      match setChunk data chunkXRegion chunkZRegion chunkBlocks with
      | none => none
      | some data' =>
        if regionXWorld = -1 ∨ regionZWorld = -1 then
          collectChunkResults rest data'
            (chunkXWorld - chunkXRegion * (SECTION_SIZE : Int))
            (chunkZWorld - chunkZRegion * (SECTION_SIZE : Int))
        else collectChunkResults rest data' regionXWorld regionZWorld

/-- The location-table decode of region_reader.cpp:410-419: 1024
big-endian 32-bit words from the first 4096 bytes (reading past the end
of a short file is undefined behaviour in the source; the claims supply
full tables, and absent bytes are taken as 0 here). -/
def getChunkLocationData (regionData : List Nat) : List Nat :=
  (List.range (SECTOR_BYTES / 4)).map fun i =>
    regionData.getD (i * 4) 0 * 2 ^ 24 + regionData.getD (i * 4 + 1) 0 * 2 ^ 16 +
      regionData.getD (i * 4 + 2) 0 * 2 ^ 8 + regionData.getD (i * 4 + 3) 0

/-- RegionReader::getChunkDataStream (region_reader.cpp:357-370): sector
offset and byte count from the location word; out_of_range when the
slice exceeds the file, otherwise the sliced bytes as a fresh buffer. -/
def getChunkDataStream (locations : List Nat) (chunkIdx : Nat) (regionData : List Nat) :
    Except Err ByteBuffer :=
  let offset := (locations.getD chunkIdx 0 >>> OFFSET_SHIFT) * SECTOR_BYTES
  let sectorCount := (locations.getD chunkIdx 0 &&& SECTOR_COUNT_MASK) * SECTOR_BYTES
  if offset + sectorCount > regionData.length then .error .outOfRange
  else .ok ⟨(regionData.drop offset).take sectorCount, 0⟩

/-- The dispatch loop of RegionReader::getRegion
(region_reader.cpp:426-442): for every chunkIdx in [0, 1024) the loop
first skips every index other than 50 (the debug filter at lines
428-430), then skips slots whose location word is zero, and otherwise
dispatches a decode task.  The returned list is the sequence of chunk
indices for which a task is dispatched, in order. -/
def dispatchedChunkIndices (locations : List Nat) : List Nat :=
  (List.range (N_CHUNKS_PER_REGION_XZ * N_CHUNKS_PER_REGION_XZ)).filter fun chunkIdx =>
    chunkIdx == 50 && locations.getD chunkIdx 0 != 0

/-- The orchestrator of RegionReader::getRegion after the file has been
read and the location table decoded (region_reader.cpp:423-470),
parameterized by the per-chunk decode task (the composition of
getChunkDataStream, zlib inflation — an external library — and
readAndProcessChunk): dispatch a task per index chosen by the loop,
await them in order, and collect into the pre-allocated all-sentinel
grid with initial origin (-1, -1). -/
def getRegionFromLocations (decode : Nat → Except Err ChunkResult) (locations : List Nat) :
    Option (RegionData × Int × Int) :=
  collectChunkResults ((dispatchedChunkIndices locations).map decode)
    initialRegionData (-1) (-1)

/-!
## Claim-side (specification) definitions

These two definitions follow the words of the specification, for
comparison with the source-derived processSection: each 64-bit word
yields floor(64 / w) indices, least-significant bits first, stopping
once 4096 indices have been produced.  unpackIndicesSpec masks each
index to w bits exactly as the specification states; unpackIndicesTrunc
additionally reduces each index modulo 2^16 (the uint16_t element type
of the result vector in the source). -/

def unpackIndicesSpec (w : Nat) (data : List Nat) : List Nat :=
  (data.flatMap fun value =>
    (List.range (64 / w)).map fun i => (value >>> (i * w)) % 2 ^ w).take TOTAL_SECTION_BLOCKS

def unpackIndicesTrunc (w : Nat) (data : List Nat) : List Nat :=
  (data.flatMap fun value =>
    (List.range (64 / w)).map fun i => (value >>> (i * w)) % 2 ^ w % 2 ^ 16).take
    TOTAL_SECTION_BLOCKS

/-!
## Concrete inputs used by counterexamples and code_bug exhibits
-/

/-- A synthetic deeply nested NBT compound: the body of a compound whose
single child is again such a compound, n levels deep.  body 0 is the
bare TagEnd terminator; each further level adds a child header
(type TagCompound, empty two-byte name) and its own terminator. -/
def nestedCompoundBody : Nat → List Nat
  | 0 => [0]
  | n + 1 => 10 :: 0 :: 0 :: (nestedCompoundBody n ++ [0])

/-- A full serialized NBT document whose root compound nests n further
compounds: root type byte, empty root name, then the nested body. -/
def nestedCompoundBytes (n : Nat) : List Nat :=
  10 :: 0 :: 0 :: nestedCompoundBody n

/-- The compound tree the parser produces for nestedCompoundBytes n: n
nested single-child compounds keyed by the empty name. -/
def nestedCompoundValue : Nat → List (List Nat × NBTValue)
  | 0 => []
  | n + 1 => [([], .compoundV (nestedCompoundValue n))]

/-- A chunk grid whose section 0 uniformly holds block id 7 and whose
other 23 sections stay at the missing-section sentinel — the shape that
readAndProcessChunk actually produces for a decoded section (its
resolution loop writes one uniform value per section, because the
shadowed processSection result leaves all palette indices 0). -/
def cexChunk : ChunkData :=
  initialChunk.set 0
    (List.replicate SECTION_SIZE (List.replicate SECTION_SIZE (List.replicate SECTION_SIZE 7)))

/-- A region grid with a single occupied chunk at region-local (0, 0)
(slot (0,0) holds cexChunk, every other slot the all-sentinel chunk) —
the end-to-end scenario of the claim. -/
def singleChunkGrid : RegionData :=
  initialRegionData.set 0 (initialChunkLine.set 0 cexChunk)

/-- A location table whose slot 0 is occupied (word 1) and every other
slot empty. -/
def locationsSlot0 : List Nat := 1 :: List.replicate 1023 0

/-- A location table whose slots 0 and 50 are both occupied. -/
def locationsSlots0And50 : List Nat :=
  (List.range 1024).map fun i => if i = 0 ∨ i = 50 then 1 else 0

/-- A decode task that succeeds for every chunk index, placing chunk
index 50 at region-local (18, 1) with world chunk coordinates (50, 33):
both occupied slots of locationsSlots0And50 would decode fine. -/
def decodeAllOk : Nat → Except Err ChunkResult :=
  fun i => .ok (((50 + i : Int)).tmod 32, 1, (50 + i : Int), 33, cexChunk)


/-!
## Shared helper lemmas
-/

theorem readRaw_success (b : ByteBuffer) (size : Nat) (h : b.pos + size ≤ b.data.length)
    (hm : b.pos + size < SIZE_T_MOD) :
    b.readRaw size = (.ok ((b.data.drop b.pos).take size), ⟨b.data, b.pos + size⟩) := by
  simp only [ByteBuffer.readRaw, Nat.mod_eq_of_lt hm]
  rw [if_neg (by omega), if_pos h]

theorem readRaw_fail (b : ByteBuffer) (size : Nat) (h : b.data.length < b.pos + size)
    (hm : b.pos + size < SIZE_T_MOD) :
    b.readRaw size = (.error .outOfRange, b) := by
  simp only [ByteBuffer.readRaw, Nat.mod_eq_of_lt hm]
  rw [if_pos (by omega)]

theorem foldl_push_take (f : Nat → Nat) :
    ∀ (L res : List Nat),
      L.foldl (fun r i => if r.length < TOTAL_SECTION_BLOCKS then r ++ [f i] else r) res
        = res ++ (L.map f).take (TOTAL_SECTION_BLOCKS - res.length) := by
  intro L
  induction L with
  | nil => simp
  | cons i L ih =>
    intro res
    rw [List.foldl_cons]
    by_cases hlen : res.length < TOTAL_SECTION_BLOCKS
    · rw [if_pos hlen, ih, List.map_cons]
      rw [show TOTAL_SECTION_BLOCKS - res.length
            = (TOTAL_SECTION_BLOCKS - (res.length + 1)) + 1 by omega,
        List.take_succ_cons, List.append_assoc, List.singleton_append]
      simp [List.length_append]
    · rw [if_neg hlen, ih, Nat.sub_eq_zero_of_le (by omega)]
      simp

theorem processWord_eq (value bitLength mask indicesPerLong : Nat) (result : List Nat) :
    processWord value bitLength mask indicesPerLong result
      = result ++ (((List.range indicesPerLong).map fun i =>
          ((value >>> (i * bitLength)) &&& mask) % 2 ^ 16).take
          (TOTAL_SECTION_BLOCKS - result.length)) :=
  foldl_push_take _ _ _

theorem foldl_processWord (bitLength mask indicesPerLong : Nat) :
    ∀ (data result : List Nat),
      data.foldl (fun r v => processWord v bitLength mask indicesPerLong r) result
        = result ++ ((data.flatMap fun v => (List.range indicesPerLong).map fun i =>
            ((v >>> (i * bitLength)) &&& mask) % 2 ^ 16).take
            (TOTAL_SECTION_BLOCKS - result.length)) := by
  intro data
  induction data with
  | nil => simp
  | cons v data ih =>
    intro result
    rw [List.foldl_cons, ih, processWord_eq]
    rw [List.flatMap_cons, List.take_append_eq_append_take, ← List.append_assoc]
    congr 2
    simp [List.length_take]
    omega

theorem processSection_eq_trunc (data : List Nat) (w : Nat) (h1 : 1 ≤ w) (h2 : w ≤ 63) :
    processSection data w = .ok (unpackIndicesTrunc w data) := by
  rw [show processSection data w
        = .ok (data.foldl (fun result value =>
            processWord value w (2 ^ w - 1) (64 / w) result) []) by
      rw [processSection, if_neg (by omega), if_neg (by omega)]]
  rw [foldl_processWord]
  simp only [List.nil_append, Nat.sub_zero, Nat.and_pow_two_sub_one_eq_mod]
  rfl

example : processSection [0x21] 4 = .ok (1 :: 2 :: List.replicate 14 0) := by
  rw [processSection_eq_trunc _ 4 (by norm_num) (by norm_num)]
  decide

example : processSection [65536] 17 = .ok [0, 0, 0] := by
  rw [processSection_eq_trunc _ 17 (by norm_num) (by norm_num)]
  decide

example : unpackIndicesSpec 17 [65536] = [65536, 0, 0] := by decide

/-- C5 (amended): for every word list and every bit width w with
1 ≤ w ≤ 63, processSection unpacks each 64-bit word into floor(64/w)
indices taken least-significant bits first, each masked to w bits and —
one amendment — truncated to the uint16_t element type (reduced modulo
2^16), stopping once 4096 indices are produced; at w = 64 — the other
amendment — the source's mask computation 1ULL << 64 is undefined
behaviour, so no defined unpacking exists there although the guard
admits it.  The width formula max(4, ceil(log2 paletteSize)) gives
width 4 for palette sizes 1 and 16 and width 5 for size 17, and
unpacking the single word 0x21 at width 4 yields exactly 16 indices
beginning 1, 2, 0, ... -/
theorem processSection_unpacking (data : List Nat) (w : Nat) (h1 : 1 ≤ w) (h2 : w ≤ 63) :
    processSection data w = .ok (unpackIndicesTrunc w data) ∧
    (∀ d : List Nat, processSection d 64 = .error .undefinedBehavior) ∧
    sectionBitLength 1 = 4 ∧ sectionBitLength 16 = 4 ∧ sectionBitLength 17 = 5 ∧
    processSection [0x21] 4 = .ok (1 :: 2 :: List.replicate 14 0) :=
  ⟨processSection_eq_trunc data w h1 h2,
    fun d => by rw [processSection, if_neg (by omega), if_pos rfl],
    by decide, by decide, by decide,
    by rw [processSection_eq_trunc _ 4 (by norm_num) (by norm_num)]; decide⟩

/-- Witness for C5: the unpacking equation applied at width 4 to the
single word 0x21. -/
theorem processSection_unpacking_witness :
    processSection [0x21] 4 = .ok (unpackIndicesTrunc 4 [0x21]) :=
  (processSection_unpacking [0x21] 4 (by norm_num) (by norm_num)).1

/-- C5 counterexample: at width 17 the word 2^16 unpacks to first index
0, not the 17-bit field 2^16 the claim prescribes — the uint16_t result
vector truncates every index to 16 bits, so indices are not simply
"masked to w bits" for w ≥ 17. -/
theorem processSection_mask_truncation_cex :
    processSection [65536] 17 ≠ .ok (unpackIndicesSpec 17 [65536]) ∧
    processSection [65536] 17 = .ok [0, 0, 0] ∧
    unpackIndicesSpec 17 [65536] = [65536, 0, 0] := by
  refine ⟨?_, ?_, by decide⟩
  · rw [processSection_eq_trunc _ 17 (by norm_num) (by norm_num)]
    decide
  · rw [processSection_eq_trunc _ 17 (by norm_num) (by norm_num)]
    decide

/-- C2 (code_bug exhibit): for a section whose block_states compound
contains a data LongArray, the indices the decoder actually resolves
against the palette are 4096 zeros, NOT the values unpacked from the
LongArray: line 327 of region_reader.cpp declares a fresh local vector
for the processSection result, shadowing the outer
flatSectionBlockIndices, so the unpacked indices are discarded.  With
palette size 2 and data [1], the unpacked indices would begin with 1,
yet the resolved indices are all 0. -/
theorem sectionIndices_shadowed :
    usedSectionBlockIndices (.longArrayV [1]) [[0x73], [0x64]] = .ok (List.replicate 4096 0) ∧
    processSection [1] (sectionBitLength 2) = .ok (1 :: List.replicate 15 0) := by
  have h4 : sectionBitLength 2 = 4 := by decide
  constructor
  · unfold usedSectionBlockIndices
    simp only [List.length_cons, List.length_nil, Nat.zero_add]
    rw [show (0 + 1 + 1 : Nat) = 2 by norm_num] 
    rw [h4, processSection_eq_trunc _ 4 (by norm_num) (by norm_num)]
    rfl
  · rw [h4, processSection_eq_trunc _ 4 (by norm_num) (by norm_num)]
    decide

set_option maxRecDepth 40000

/-- C9 (code_bug exhibit): the chunk-local-to-region coordinates are
computed with the C++ % operator, the truncated remainder, so for the
negative world chunk coordinates (-1, -3) they are (-1, -3) — outside
the claimed range [0, 32) — and the subsequent region-grid write
data[chunkXRegion][chunkZRegion] indexes the 32-entry vectors out of
bounds. -/
theorem chunkRegionCoords_negative :
    chunkRegionCoords (-1) (-3) = (-1, -3) ∧ ¬(0 ≤ (-1 : Int)) := by
  constructor
  · decide
  · decide

/-- C1 (code_bug exhibit): the dispatch loop of RegionReader::getRegion
does not dispatch one decode task per non-zero location word: a debug
filter (region_reader.cpp:428-430) skips every chunk index other than
50.  For a table whose only occupied slot is 0, no task at all is
dispatched; slot 50, when occupied, is the only slot that ever gets
one. -/
theorem dispatch_debug_filter :
    locationsSlot0.getD 0 0 = 1 ∧
    dispatchedChunkIndices locationsSlot0 = [] ∧
    locationsSlots0And50.getD 50 0 = 1 ∧
    dispatchedChunkIndices locationsSlots0And50 = [50] := by
  refine ⟨by decide, by decide, by decide, by decide⟩

/-- C7 (code_bug exhibit): the containment half of the claim holds — a
failed future is caught at the join and the collection simply moves on
to the remaining futures — but the conclusion that only failed chunks'
slots retain the all-0xFFFF default is false: with slots 0 and 50 both
occupied and a decode task that would succeed for every index, slot 0
is never even dispatched (the chunkIdx != 50 debug filter), so its slot
retains the all-sentinel initial chunk although it did not fail. -/
theorem chunk_failure_containment :
    (∀ (e : Err) (rest : List (Except Err ChunkResult)) (data : RegionData) (rx rz : Int),
      collectChunkResults (.error e :: rest) data rx rz
        = collectChunkResults rest data rx rz) ∧
    locationsSlots0And50.getD 0 0 = 1 ∧
    dispatchedChunkIndices locationsSlots0And50 = [50] ∧
    decodeAllOk 0 = .ok (18, 1, 50, 33, cexChunk) ∧
    (getRegionFromLocations decodeAllOk locationsSlots0And50).bind
      (fun r => (r.1.get? 0).bind fun line => line.get? 0) = some initialChunk := by
  refine ⟨fun e rest data rx rz => rfl, by decide, by decide, by rfl, by rfl⟩

theorem vecIdx_replicate {α : Type} (n : Nat) (a : α) (i : Int) :
    vecIdx (List.replicate n a) i = none ∨ vecIdx (List.replicate n a) i = some a := by
  unfold vecIdx
  by_cases h0 : 0 ≤ i
  · rw [if_pos h0, List.get?_eq_getElem?, List.getElem?_replicate]
    by_cases hi : i.toNat < n
    · right; rw [if_pos hi]
    · left; rw [if_neg hi]
  · left; rw [if_neg h0]

theorem vecIdx_bind_replicate {α β : Type} (n : Nat) (a : α) (i : Int) (f : α → Option β) :
    (vecIdx (List.replicate n a) i).bind f = none ∨
      (vecIdx (List.replicate n a) i).bind f = f a := by
  rcases vecIdx_replicate n a i with h | h <;> rw [h] <;> simp

theorem blockAt_initial_cases (x y z : Int) :
    getBlockAt initialRegionData x y z = none ∨
      getBlockAt initialRegionData x y z = some 0xFFFF := by
  unfold getBlockAt initialRegionData
  rcases vecIdx_bind_replicate N_CHUNKS_PER_REGION_XZ initialChunkLine (x.tdiv (SECTION_SIZE : Int))
    _ with h1 | h1
  · left; exact h1
  rw [h1]; unfold initialChunkLine
  rcases vecIdx_bind_replicate N_CHUNKS_PER_REGION_XZ initialChunk (z.tdiv (SECTION_SIZE : Int))
    _ with h2 | h2
  · left; exact h2
  rw [h2]; unfold initialChunk
  rcases vecIdx_bind_replicate N_SECTIONS_PER_CHUNK_Y initialSection (y.tdiv (SECTION_SIZE : Int))
    _ with h3 | h3
  · left; exact h3
  rw [h3]; unfold initialSection
  rcases vecIdx_bind_replicate SECTION_SIZE initialSectionPlane (x.tmod (SECTION_SIZE : Int))
    _ with h4 | h4
  · left; exact h4
  rw [h4]; unfold initialSectionPlane
  rcases vecIdx_bind_replicate SECTION_SIZE initialSectionLine (y.tmod (SECTION_SIZE : Int))
    _ with h5 | h5
  · left; exact h5
  rw [h5]; unfold initialSectionLine
  exact vecIdx_replicate SECTION_SIZE 0xFFFF (z.tmod (SECTION_SIZE : Int))

/-- C10 (confirmed): when no chunk task completes successfully, the
collect loop returns normally with the untouched all-sentinel region
grid and the placeholder origin (-1, -1): every future's error is
caught and skipped, every in-extent cell of the grid reads the 0xFFFF
sentinel (out-of-extent queries are the unchecked none), and — the
indistinguishability — a successful chunk at world chunk coordinates
(239, 239) also yields origin (-1, -1). -/
theorem getRegion_no_success_defaults :
    (∀ futures : List (Except Err ChunkResult),
      (∀ r ∈ futures, ∃ e, r = .error e) →
      collectChunkResults futures initialRegionData (-1) (-1)
        = some (initialRegionData, -1, -1)) ∧
    (∀ x y z : Int,
      getBlockAt initialRegionData x y z = none ∨
        getBlockAt initialRegionData x y z = some 0xFFFF) ∧
    (collectChunkResults [.ok (15, 15, 239, 239, initialChunk)]
        initialRegionData (-1) (-1)).map (fun r => (r.2.1, r.2.2)) = some (-1, -1) := by
  refine ⟨?_, blockAt_initial_cases, by rfl⟩
  intro futures h
  induction futures with
  | nil => rfl
  | cons r rest ih =>
    rcases h r (by simp) with ⟨e, rfl⟩
    exact ih fun r hr => h r (by simp [hr])

/-- Witness for C10: the all-failure equation applied to a one-element
future list holding an outOfRange error. -/
theorem getRegion_no_success_defaults_witness :
    collectChunkResults [.error .outOfRange] initialRegionData (-1) (-1)
      = some (initialRegionData, -1, -1) :=
  getRegion_no_success_defaults.1 [.error .outOfRange]
    (fun r hr => ⟨.outOfRange, by simpa using hr⟩)

/-- C4 (amended): the origin the collect loop derives from the first
successfully decoded chunk is chunkWorld - chunkRegion * 16 per axis
(not the world chunk coordinates divided by 32), and it is re-derived
at any later success for which either stored coordinate is still -1
(so not always exactly once): a first chunk at (239, 0) yields origin
(-1, 0), whose -1 makes the loop recompute at the second chunk,
ending at (17, 17). -/
theorem region_origin_derivation :
    (∀ (cxR czR cxW czW : Int) (blocks : ChunkData) (rest : List (Except Err ChunkResult))
        (data data' : RegionData),
      setChunk data cxR czR blocks = some data' →
      collectChunkResults (.ok (cxR, czR, cxW, czW, blocks) :: rest) data (-1) (-1)
        = collectChunkResults rest data'
            (cxW - cxR * (SECTION_SIZE : Int)) (czW - czR * (SECTION_SIZE : Int))) ∧
    (∀ (cxR czR cxW czW : Int) (blocks : ChunkData) (rest : List (Except Err ChunkResult))
        (data data' : RegionData) (rx rz : Int),
      setChunk data cxR czR blocks = some data' → rx ≠ -1 → rz ≠ -1 →
      collectChunkResults (.ok (cxR, czR, cxW, czW, blocks) :: rest) data rx rz
        = collectChunkResults rest data' rx rz) ∧
    (collectChunkResults
        [.ok (15, 0, 239, 0, initialChunk), .ok (1, 1, 33, 33, initialChunk)]
        initialRegionData (-1) (-1)).map (fun r => (r.2.1, r.2.2)) = some (17, 17) := by
  refine ⟨?_, ?_, by rfl⟩
  · intro cxR czR cxW czW blocks rest data data' hset
    show (match setChunk data cxR czR blocks with
      | none => none
      | some d =>
        if (-1 : Int) = -1 ∨ (-1 : Int) = -1 then
          collectChunkResults rest d
            (cxW - cxR * (SECTION_SIZE : Int)) (czW - czR * (SECTION_SIZE : Int))
        else collectChunkResults rest d (-1) (-1)) = _
    rw [hset]
    rfl
  · intro cxR czR cxW czW blocks rest data data' rx rz hset hrx hrz
    show (match setChunk data cxR czR blocks with
      | none => none
      | some d =>
        if rx = -1 ∨ rz = -1 then
          collectChunkResults rest d
            (cxW - cxR * (SECTION_SIZE : Int)) (czW - czR * (SECTION_SIZE : Int))
        else collectChunkResults rest d rx rz) = _
    rw [hset]
    show (if rx = -1 ∨ rz = -1 then
        collectChunkResults rest data'
          (cxW - cxR * (SECTION_SIZE : Int)) (czW - czR * (SECTION_SIZE : Int))
      else collectChunkResults rest data' rx rz) = collectChunkResults rest data' rx rz
    rw [if_neg (by simp [hrx, hrz])]

/-- C4 counterexample: a single successfully decoded chunk with world
chunk coordinates (33, 33) produces origin (17, 17)
(33 - (33 % 32) * 16), whereas the claim prescribes
33 / 32 = 1 per axis. -/
theorem region_origin_cex :
    (collectChunkResults [.ok (1, 1, 33, 33, initialChunk)]
        initialRegionData (-1) (-1)).map (fun r => (r.2.1, r.2.2)) = some (17, 17) ∧
    (33 : Int).tdiv 32 = 1 ∧ (17 : Int) ≠ 1 := by
  refine ⟨by rfl, by decide, by decide⟩

/-- Witness for C4: the first-success equation applied to the chunk at
world chunk coordinates (33, 33) on the initial grid. -/
theorem region_origin_derivation_witness :
    collectChunkResults [.ok (1, 1, 33, 33, initialChunk)] initialRegionData (-1) (-1)
      = collectChunkResults [] (initialRegionData.set 1 (initialChunkLine.set 1 initialChunk))
          17 17 :=
  region_origin_derivation.1 1 1 33 33 initialChunk [] initialRegionData
    (initialRegionData.set 1 (initialChunkLine.set 1 initialChunk)) (by rfl)

theorem intCast_tdiv (m n : Nat) : (m : Int).tdiv (n : Int) = ((m / n : Nat) : Int) := rfl

theorem intCast_tmod (m n : Nat) : (m : Int).tmod (n : Int) = ((m % n : Nat) : Int) := rfl

theorem vecIdx_natCast {α : Type} (l : List α) (n : Nat) : vecIdx l (n : Int) = l.get? n := by
  unfold vecIdx
  rw [if_pos (Int.natCast_nonneg n), Int.toNat_natCast]

theorem getBlockAt_natCast (g : RegionData) (xn yn zn : Nat) :
    getBlockAt g (xn : Int) (yn : Int) (zn : Int)
      = (g.get? (xn / 16)).bind fun line =>
          (line.get? (zn / 16)).bind fun chunk =>
            (chunk.get? (yn / 16)).bind fun plane =>
              (plane.get? (xn % 16)).bind fun row =>
                (row.get? (yn % 16)).bind fun cell => cell.get? (zn % 16) := by
  have hs : (SECTION_SIZE : Int) = ((16 : Nat) : Int) := rfl
  simp only [getBlockAt, hs, intCast_tdiv, intCast_tmod, vecIdx_natCast]

theorem get?_replicate_lt {α : Type} (n k : Nat) (a : α) (hk : k < n) :
    (List.replicate n a).get? k = some a := by
  rw [List.get?_eq_getElem?, List.getElem?_replicate, if_pos hk]

theorem query_initialChunk (sy dx dy dz : Nat)
    (h1 : sy < 24) (h2 : dx < 16) (h3 : dy < 16) (h4 : dz < 16) :
    ((initialChunk.get? sy).bind fun plane =>
      (plane.get? dx).bind fun row =>
        (row.get? dy).bind fun cell => cell.get? dz) = some 0xFFFF := by
  rw [initialChunk,
    get?_replicate_lt _ _ _ (show sy < N_SECTIONS_PER_CHUNK_Y by
      unfold N_SECTIONS_PER_CHUNK_Y CHUNK_SIZE_Y SECTION_SIZE; omega),
    Option.bind]
  rw [initialSection,
    get?_replicate_lt _ _ _ (show dx < SECTION_SIZE by unfold SECTION_SIZE; omega),
    Option.bind]
  rw [initialSectionPlane,
    get?_replicate_lt _ _ _ (show dy < SECTION_SIZE by unfold SECTION_SIZE; omega),
    Option.bind]
  rw [initialSectionLine,
    get?_replicate_lt _ _ _ (show dz < SECTION_SIZE by unfold SECTION_SIZE; omega)]

theorem query_cexChunk (sy dx dy dz : Nat)
    (h1 : sy < 24) (h2 : dx < 16) (h3 : dy < 16) (h4 : dz < 16) :
    ((cexChunk.get? sy).bind fun plane =>
      (plane.get? dx).bind fun row =>
        (row.get? dy).bind fun cell => cell.get? dz)
      = some (if sy = 0 then 7 else 0xFFFF) := by
  by_cases hsy : sy = 0
  · subst hsy
    rw [if_pos rfl, cexChunk, List.get?_eq_getElem?,
      List.getElem?_set_self (by
        rw [initialChunk, List.length_replicate]
        unfold N_SECTIONS_PER_CHUNK_Y CHUNK_SIZE_Y SECTION_SIZE; omega),
      Option.bind,
      get?_replicate_lt _ _ _ (show dx < SECTION_SIZE by unfold SECTION_SIZE; omega),
      Option.bind,
      get?_replicate_lt _ _ _ (show dy < SECTION_SIZE by unfold SECTION_SIZE; omega),
      Option.bind,
      get?_replicate_lt _ _ _ (show dz < SECTION_SIZE by unfold SECTION_SIZE; omega)]
  · rw [if_neg hsy, cexChunk, List.get?_eq_getElem?,
      List.getElem?_set_ne (fun h => hsy h.symm), ← List.get?_eq_getElem?]
    exact query_initialChunk sy dx dy dz h1 h2 h3 h4

/-- C3 (amended): Region::getBlockAt carries no bounds checks, so it is
total only on the grid extents (0 ≤ x, z < 512, 0 ≤ y < 384; outside
them the unchecked vector accesses are undefined behaviour, modelled
none).  Within the extents, on a region whose single occupied chunk
sits at region-local (0, 0) with block id 7 decoded throughout its
section 0: every query outside that chunk's 16x384x16 column returns
the 0xFFFF sentinel, and queries inside the column return the chunk's
stored value (7 in section 0, sentinel in the undecoded sections). -/
theorem getBlockAt_contract (x y z : Int)
    (hx0 : 0 ≤ x) (hx : x < 512) (hy0 : 0 ≤ y) (hy : y < 384) (hz0 : 0 ≤ z) (hz : z < 512) :
    (16 ≤ x ∨ 16 ≤ z → getBlockAt singleChunkGrid x y z = some 0xFFFF) ∧
    (x < 16 → z < 16 →
      getBlockAt singleChunkGrid x y z = some (if y < 16 then 7 else 0xFFFF)) := by
  obtain ⟨xn, rfl⟩ : ∃ k : Nat, x = (k : Int) := ⟨x.toNat, (Int.toNat_of_nonneg hx0).symm⟩
  obtain ⟨yn, rfl⟩ : ∃ k : Nat, y = (k : Int) := ⟨y.toNat, (Int.toNat_of_nonneg hy0).symm⟩
  obtain ⟨zn, rfl⟩ : ∃ k : Nat, z = (k : Int) := ⟨z.toNat, (Int.toNat_of_nonneg hz0).symm⟩
  have hxn : xn < 512 := by exact_mod_cast hx
  have hyn : yn < 384 := by exact_mod_cast hy
  have hzn : zn < 512 := by exact_mod_cast hz
  rw [getBlockAt_natCast]
  have htop : ∀ k : Nat, k < 32 → k ≠ 0 → singleChunkGrid.get? k = some initialChunkLine := by
    intro k hk hk0
    rw [singleChunkGrid, List.get?_eq_getElem?, List.getElem?_set_ne (fun h => hk0 h.symm),
      initialRegionData, List.getElem?_replicate,
      if_pos (show k < N_CHUNKS_PER_REGION_XZ by unfold N_CHUNKS_PER_REGION_XZ; omega)]
  have htop0 : singleChunkGrid.get? 0 = some (initialChunkLine.set 0 cexChunk) := by
    rw [singleChunkGrid, List.get?_eq_getElem?, List.getElem?_set_self (by
      rw [initialRegionData, List.length_replicate]; unfold N_CHUNKS_PER_REGION_XZ; omega)]
  have hline : ∀ k : Nat, k < 32 → k ≠ 0 →
      (initialChunkLine.set 0 cexChunk).get? k = some initialChunk := by
    intro k hk hk0
    rw [List.get?_eq_getElem?, List.getElem?_set_ne (fun h => hk0 h.symm),
      initialChunkLine, List.getElem?_replicate,
      if_pos (show k < N_CHUNKS_PER_REGION_XZ by unfold N_CHUNKS_PER_REGION_XZ; omega)]
  have hline0 : (initialChunkLine.set 0 cexChunk).get? 0 = some cexChunk := by
    rw [List.get?_eq_getElem?, List.getElem?_set_self (by
      rw [initialChunkLine, List.length_replicate]; unfold N_CHUNKS_PER_REGION_XZ; omega)]
  have hlineInit : ∀ k : Nat, k < 32 → initialChunkLine.get? k = some initialChunk := by
    intro k hk
    rw [initialChunkLine, get?_replicate_lt _ _ _
      (show k < N_CHUNKS_PER_REGION_XZ by unfold N_CHUNKS_PER_REGION_XZ; omega)]
  constructor
  · intro hout
    rcases hout with hxo | hzo
    · have hxo' : 16 ≤ xn := by exact_mod_cast hxo
      rw [htop (xn / 16) (by omega) (by omega), Option.bind,
        hlineInit (zn / 16) (by omega), Option.bind]
      exact query_initialChunk _ _ _ _ (by omega) (by omega) (by omega) (by omega)
    · have hzo' : 16 ≤ zn := by exact_mod_cast hzo
      by_cases hx16 : xn / 16 = 0
      · rw [hx16, htop0, Option.bind, hline (zn / 16) (by omega) (by omega), Option.bind]
        exact query_initialChunk _ _ _ _ (by omega) (by omega) (by omega) (by omega)
      · rw [htop (xn / 16) (by omega) hx16, Option.bind, hlineInit (zn / 16) (by omega),
          Option.bind]
        exact query_initialChunk _ _ _ _ (by omega) (by omega) (by omega) (by omega)
  · intro hx16 hz16
    have hx16' : xn < 16 := by exact_mod_cast hx16
    have hz16' : zn < 16 := by exact_mod_cast hz16
    rw [show xn / 16 = 0 by omega, show zn / 16 = 0 by omega, htop0, Option.bind,
      hline0, Option.bind]
    have := query_cexChunk (yn / 16) (xn % 16) (yn % 16) (zn % 16)
      (by omega) (by omega) (by omega) (by omega)
    rw [this]
    by_cases hy16 : yn < 16
    · rw [if_pos (show yn / 16 = 0 by omega), if_pos (by exact_mod_cast hy16)]
    · rw [if_neg (show ¬ yn / 16 = 0 by omega), if_neg (by
        intro hc
        exact hy16 (by exact_mod_cast hc))]

/-- C3 counterexample: on the single-occupied-chunk grid, the queries
(512, 0, 0) and (-1, 0, 0) fall outside the grid extents and hit
unchecked out-of-range vector accesses (none) instead of returning the
0xFFFF sentinel the claim promises for every coordinate outside the
occupied column. -/
theorem getBlockAt_unbounded_cex :
    getBlockAt singleChunkGrid 512 0 0 = none ∧
    getBlockAt singleChunkGrid (-1) 0 0 = none := by
  constructor
  · rfl
  · rfl

/-- Witness for C3: the bounded contract applied at (20, 5, 3) (outside
the occupied column, sentinel) and (3, 5, 3) (inside, block id 7). -/
theorem getBlockAt_contract_witness :
    getBlockAt singleChunkGrid 20 5 3 = some 0xFFFF ∧
    getBlockAt singleChunkGrid 3 5 3 = some 7 := by
  constructor
  · exact (getBlockAt_contract 20 5 3 (by norm_num) (by norm_num) (by norm_num) (by norm_num)
      (by norm_num) (by norm_num)).1 (Or.inl (by norm_num))
  · simpa using (getBlockAt_contract 3 5 3 (by norm_num) (by norm_num) (by norm_num)
      (by norm_num) (by norm_num) (by norm_num)).2 (by norm_num) (by norm_num)

theorem parseTag_depth_gt (fuel : Nat) (hf : fuel ≠ 0) (b : ByteBuffer) (t : Int)
    (nm : Bool) (d : Nat) (hd : MAX_NBT_DEPTH < d) :
    parseTag fuel b t nm d = .error .depthExceeded := by
  obtain ⟨f, rfl⟩ : ∃ f, fuel = f + 1 := ⟨fuel - 1, by omega⟩
  rw [parseTag]
  rw [if_pos hd]

theorem readFixedE_cons (pre rest : List Nat) (b : Nat) (hm : pre.length + 1 < SIZE_T_MOD) :
    (⟨pre ++ b :: rest, pre.length⟩ : ByteBuffer).readFixedE 1
      = .ok (b, ⟨pre ++ b :: rest, pre.length + 1⟩) := by
  unfold ByteBuffer.readFixedE ByteBuffer.readFixed
  rw [readRaw_success _ _ (by simp [List.length_append]) hm]
  have hdrop : ((pre ++ b :: rest).drop pre.length).take 1 = [b] := by
    rw [List.drop_left]
    rfl
  rw [hdrop]
  show Except.ok (beValue [b], _) = _
  unfold beValue
  simp

theorem readTagName_zeros (pre rest : List Nat) (hm : pre.length + 2 < SIZE_T_MOD) :
    readTagName ⟨pre ++ 0 :: 0 :: rest, pre.length⟩
      = .ok ([], ⟨pre ++ 0 :: 0 :: rest, pre.length + 2⟩) := by
  unfold readTagName
  rw [readFixedE_cons pre (0 :: rest) 0 (by omega)]
  have hb : (⟨pre ++ 0 :: 0 :: rest, pre.length + 1⟩ : ByteBuffer)
      = ⟨(pre ++ [0]) ++ 0 :: rest, (pre ++ [0]).length⟩ := by
    simp
  rw [hb]
  show (match (⟨(pre ++ [0]) ++ 0 :: rest, (pre ++ [0]).length⟩ : ByteBuffer).readFixedE 1 with
    | Except.error e => (Except.error e : Except Err (List Nat × ByteBuffer))
    | Except.ok (n2, b2) =>
      if (0 : Nat) * 256 + n2 = 0 then Except.ok (([] : List Nat), b2)
      else b2.readStringE (0 * 256 + n2))
    = Except.ok (([] : List Nat), (⟨pre ++ 0 :: 0 :: rest, pre.length + 2⟩ : ByteBuffer))
  rw [readFixedE_cons (pre ++ [0]) rest 0 (by simp; omega)]
  simp

theorem length_nestedCompoundBody (n : Nat) : (nestedCompoundBody n).length = 4 * n + 1 := by
  induction n with
  | zero => rfl
  | succ n ih =>
    show (10 :: 0 :: 0 :: (nestedCompoundBody n ++ [0])).length = 4 * (n + 1) + 1
    simp [ih]
    omega

theorem parseCompoundEntries_end (f : Nat) (pre rest : List Nat) (d : Nat)
    (m : List (List Nat × NBTValue)) (hm : pre.length + 1 < SIZE_T_MOD) :
    parseCompoundEntries (f + 1) ⟨pre ++ 0 :: rest, pre.length⟩ d m
      = .ok (m, ⟨pre ++ 0 :: rest, pre.length + 1⟩) := by
  rw [parseCompoundEntries, readFixedE_cons pre rest 0 hm]
  simp

theorem parseTag_compound_unfold (f : Nat) (b : ByteBuffer) (d : Nat)
    (hd : d ≤ MAX_NBT_DEPTH) (name : List Nat) (b0 : ByteBuffer)
    (hname : readTagName b = .ok (name, b0)) :
    parseTag (f + 1) b 10 true d
      = match parseCompoundEntries f b0 d [] with
        | .error e => .error e
        | .ok (m, b1) => .ok (⟨name, 10, .compoundV m⟩, b1) := by
  rw [parseTag, if_neg (by omega), hname]
  simp

theorem parseCompoundEntries_child (g : Nat) (pre rest : List Nat) (d : Nat)
    (m : List (List Nat × NBTValue)) (hm : pre.length + 1 < SIZE_T_MOD) :
    parseCompoundEntries (g + 1) ⟨pre ++ 10 :: rest, pre.length⟩ d m
      = match parseTag g ⟨pre ++ 10 :: rest, pre.length + 1⟩ 10 true (d + 1) with
        | .error e => .error e
        | .ok (child, b2) => parseCompoundEntries g b2 d (insertCompound m child.name child.value) := by
  rw [parseCompoundEntries, readFixedE_cons pre rest 10 hm]
  simp

theorem parseChain :
    ∀ (n d fuel : Nat) (pre rest : List Nat),
      2 * n + 2 ≤ fuel → d ≤ MAX_NBT_DEPTH → pre.length + 4 * n + 8 < SIZE_T_MOD →
      parseTag fuel ⟨pre ++ 0 :: 0 :: (nestedCompoundBody n ++ rest), pre.length⟩ 10 true d
        = if d + n ≤ MAX_NBT_DEPTH then
            .ok (⟨[], 10, .compoundV (nestedCompoundValue n)⟩,
              ⟨pre ++ 0 :: 0 :: (nestedCompoundBody n ++ rest), pre.length + 3 + 4 * n⟩)
          else .error .depthExceeded := by
  intro n
  induction n with
  | zero =>
    intro d fuel pre rest hfuel hd hm
    obtain ⟨f, rfl⟩ : ∃ f, fuel = f + 1 := ⟨fuel - 1, by omega⟩
    obtain ⟨g, rfl⟩ : ∃ g, f = g + 1 := ⟨f - 1, by omega⟩
    rw [parseTag_compound_unfold (g + 1) _ d hd [] _ (readTagName_zeros pre _ (by omega))]
    have hb : (⟨pre ++ 0 :: 0 :: (nestedCompoundBody 0 ++ rest), pre.length + 2⟩ : ByteBuffer)
        = ⟨(pre ++ [0, 0]) ++ 0 :: rest, (pre ++ [0, 0]).length⟩ := by
      simp [nestedCompoundBody]
    rw [hb, parseCompoundEntries_end g _ rest d [] (by simp; omega)]
    rw [if_pos (show d + 0 ≤ MAX_NBT_DEPTH by omega)]
    show Except.ok ((⟨[], 10, .compoundV []⟩ : NBTTag),
        (⟨(pre ++ [0, 0]) ++ 0 :: rest, (pre ++ [0, 0]).length + 1⟩ : ByteBuffer)) = _
    simp [nestedCompoundValue, nestedCompoundBody]
  | succ n ih =>
    intro d fuel pre rest hfuel hd hm
    obtain ⟨f, rfl⟩ : ∃ f, fuel = f + 1 := ⟨fuel - 1, by omega⟩
    obtain ⟨g, rfl⟩ : ∃ g, f = g + 1 := ⟨f - 1, by omega⟩
    rw [parseTag_compound_unfold (g + 1) _ d hd [] _ (readTagName_zeros pre _ (by omega))]
    have hb0 : (⟨pre ++ 0 :: 0 :: (nestedCompoundBody (n + 1) ++ rest), pre.length + 2⟩ :
        ByteBuffer)
        = ⟨(pre ++ [0, 0]) ++ 10 :: (0 :: 0 :: (nestedCompoundBody n ++ (0 :: rest))),
            (pre ++ [0, 0]).length⟩ := by
      simp [nestedCompoundBody]
    rw [hb0, parseCompoundEntries_child g _ _ d [] (by simp; omega)]
    have hb1 : (⟨(pre ++ [0, 0]) ++ 10 :: (0 :: 0 :: (nestedCompoundBody n ++ (0 :: rest))),
        (pre ++ [0, 0]).length + 1⟩ : ByteBuffer)
        = ⟨(pre ++ [0, 0, 10]) ++ 0 :: 0 :: (nestedCompoundBody n ++ (0 :: rest)),
            (pre ++ [0, 0, 10]).length⟩ := by
      simp
    rw [hb1]
    by_cases hd1 : d + 1 ≤ MAX_NBT_DEPTH
    · rw [ih (d + 1) g (pre ++ [0, 0, 10]) (0 :: rest) (by omega) hd1 (by simp; omega)]
      by_cases hdn : d + 1 + n ≤ MAX_NBT_DEPTH
      · rw [if_pos hdn]
        show (match parseCompoundEntries g
            ⟨(pre ++ [0, 0, 10]) ++ 0 :: 0 :: (nestedCompoundBody n ++ (0 :: rest)),
              (pre ++ [0, 0, 10]).length + 3 + 4 * n⟩ d
            (insertCompound [] [] (.compoundV (nestedCompoundValue n))) with
          | Except.error e => (Except.error e : Except Err (NBTTag × ByteBuffer))
          | Except.ok (m, b1) => Except.ok (⟨[], 10, .compoundV m⟩, b1)) = _
        obtain ⟨h, rfl⟩ : ∃ h, g = h + 1 := ⟨g - 1, by omega⟩
        have hb2 : (⟨(pre ++ [0, 0, 10]) ++ 0 :: 0 :: (nestedCompoundBody n ++ (0 :: rest)),
            (pre ++ [0, 0, 10]).length + 3 + 4 * n⟩ : ByteBuffer)
            = ⟨((pre ++ [0, 0, 10, 0, 0]) ++ nestedCompoundBody n) ++ 0 :: rest,
                ((pre ++ [0, 0, 10, 0, 0]) ++ nestedCompoundBody n).length⟩ := by
          simp [length_nestedCompoundBody]
          omega
        rw [hb2, parseCompoundEntries_end h _ rest d _
          (by simp [length_nestedCompoundBody]; omega)]
        rw [if_pos (show d + (n + 1) ≤ MAX_NBT_DEPTH by omega)]
        show Except.ok ((⟨[], 10,
            .compoundV (insertCompound [] [] (.compoundV (nestedCompoundValue n)))⟩ : NBTTag),
            (⟨((pre ++ [0, 0, 10, 0, 0]) ++ nestedCompoundBody n) ++ 0 :: rest,
              ((pre ++ [0, 0, 10, 0, 0]) ++ nestedCompoundBody n).length + 1⟩ : ByteBuffer)) = _
        simp [nestedCompoundValue, nestedCompoundBody, insertCompound,
          length_nestedCompoundBody]
        omega
      · rw [if_neg hdn, if_neg (show ¬ d + (n + 1) ≤ MAX_NBT_DEPTH by omega)]
    · rw [parseTag_depth_gt g (by omega) _ 10 true (d + 1) (by omega)]
      rw [if_neg (show ¬ d + (n + 1) ≤ MAX_NBT_DEPTH by omega)]

theorem parseNBT_nested (n fuel : Nat) (hfuel : 2 * n + 2 ≤ fuel) (hn : n < 2 ^ 60) :
    parseNBT fuel ⟨nestedCompoundBytes n, 0⟩
      = if n ≤ MAX_NBT_DEPTH then
          .ok (⟨[], 10, .compoundV (nestedCompoundValue n)⟩,
            ⟨nestedCompoundBytes n, 4 * n + 4⟩)
        else .error .depthExceeded := by
  unfold parseNBT
  have h1 : (⟨nestedCompoundBytes n, 0⟩ : ByteBuffer).readFixedE 1
      = .ok (10, ⟨nestedCompoundBytes n, 1⟩) := by
    have h := readFixedE_cons [] (0 :: 0 :: nestedCompoundBody n) 10 (by simp [SIZE_T_MOD])
    simpa [nestedCompoundBytes] using h
  rw [h1]
  have hb : (⟨nestedCompoundBytes n, 1⟩ : ByteBuffer)
      = ⟨[10] ++ 0 :: 0 :: (nestedCompoundBody n ++ []), ([10] : List Nat).length⟩ := by
    simp [nestedCompoundBytes]
  show (if (10 : Nat) ≠ 10 then (Except.error Err.invalidRoot : Except Err (NBTTag × ByteBuffer))
    else parseTag fuel ⟨nestedCompoundBytes n, 1⟩ 10 true 0) = _
  rw [if_neg (by omega), hb,
    parseChain n 0 fuel [10] [] hfuel (by unfold MAX_NBT_DEPTH; omega)
      (by simp [SIZE_T_MOD]; omega)]
  by_cases hnd : n ≤ MAX_NBT_DEPTH
  · rw [if_pos (show 0 + n ≤ MAX_NBT_DEPTH by omega), if_pos hnd]
    simp [nestedCompoundBytes]
    omega
  · rw [if_neg (show ¬ 0 + n ≤ MAX_NBT_DEPTH by omega), if_neg hnd]

/-- C8 (confirmed): parseTag fails with depthExceeded the moment its
depth argument exceeds MAX_NBT_DEPTH = 512, before reading any input,
for every buffer, type and name flag; and on the synthetic family of
n-fold nested compounds — where each nesting level is one recursive
call at depth + 1 — the full parse succeeds exactly for n ≤ 512 and
fails with depthExceeded exactly for n > 512, so nesting within the
limit never triggers the failure. -/
theorem parseTag_depth_behavior :
    (∀ (fuel : Nat) (b : ByteBuffer) (t : Int) (nm : Bool) (d : Nat),
      fuel ≠ 0 → MAX_NBT_DEPTH < d → parseTag fuel b t nm d = .error .depthExceeded) ∧
    (∀ n : Nat, n ≤ MAX_NBT_DEPTH →
      parseNBT (2 * n + 2) ⟨nestedCompoundBytes n, 0⟩
        = .ok (⟨[], 10, .compoundV (nestedCompoundValue n)⟩,
            ⟨nestedCompoundBytes n, 4 * n + 4⟩)) ∧
    (∀ n : Nat, MAX_NBT_DEPTH < n → n < 2 ^ 60 →
      parseNBT (2 * n + 2) ⟨nestedCompoundBytes n, 0⟩ = .error .depthExceeded) := by
  refine ⟨fun fuel b t nm d hf hd => parseTag_depth_gt fuel hf b t nm d hd, ?_, ?_⟩
  · intro n hn
    rw [parseNBT_nested n _ (le_refl _) (by unfold MAX_NBT_DEPTH at hn; omega), if_pos hn]
  · intro n hn hbig
    rw [parseNBT_nested n _ (le_refl _) hbig, if_neg (by omega)]

/-- Witness for C8: the guard applied at depth 513 on the empty buffer,
and the nested-compound family at the boundary depths 512 (parses) and
513 (depthExceeded). -/
theorem parseTag_depth_behavior_witness :
    parseTag 1 ⟨[], 0⟩ 10 true 513 = .error .depthExceeded ∧
    parseNBT (2 * 512 + 2) ⟨nestedCompoundBytes 512, 0⟩
      = .ok (⟨[], 10, .compoundV (nestedCompoundValue 512)⟩,
          ⟨nestedCompoundBytes 512, 4 * 512 + 4⟩) ∧
    parseNBT (2 * 513 + 2) ⟨nestedCompoundBytes 513, 0⟩ = .error .depthExceeded :=
  ⟨parseTag_depth_behavior.1 1 ⟨[], 0⟩ 10 true 513 (by omega)
      (by unfold MAX_NBT_DEPTH; omega),
    parseTag_depth_behavior.2.1 512 (by unfold MAX_NBT_DEPTH; omega),
    parseTag_depth_behavior.2.2 513 (by unfold MAX_NBT_DEPTH; omega) (by norm_num)⟩

/-- C6 (amended): for every cursor state and every requested read size
that does not overflow the size_t guard arithmetic
(position + size < 2^64), each ByteBuffer read
(read(size), readString, readByteArray, read&lt;T&gt;) either returns
exactly the bytes of the underlying buffer at the pre-read position and
advances the position by exactly the requested size, or — when too few
bytes remain — fails with outOfRange leaving the buffer unmutated.  For
a size that does overflow the guard arithmetic (position + size ≥ 2^64,
reachable from input, e.g. a TagByteArray length of -1 converted to
size_t), the bounds check wraps and is bypassed and the read instead
fails with std::length_error from the oversized vector/string
allocation — still a defined failure, still leaving the position
unmutated, but not the OutOfRange the claim as stated promises (see the
counterexample); this conjunct is stated under the C++ representability
invariant that the buffer length itself fits in size_t.  The invariant position ≤ length is preserved by every
read of any size and by seek. -/
theorem byteBuffer_read_contract (b : ByteBuffer) (size : Nat) :
    (b.pos + size < SIZE_T_MOD → b.pos + size ≤ b.data.length →
      b.readRaw size = (.ok ((b.data.drop b.pos).take size), ⟨b.data, b.pos + size⟩) ∧
      b.readString size = (.ok ((b.data.drop b.pos).take size), ⟨b.data, b.pos + size⟩) ∧
      b.readByteArray size
        = (.ok (((b.data.drop b.pos).take size).map byteToInt8), ⟨b.data, b.pos + size⟩) ∧
      b.readFixed size
        = (.ok (beValue ((b.data.drop b.pos).take size)), ⟨b.data, b.pos + size⟩)) ∧
    (b.pos + size < SIZE_T_MOD → b.data.length < b.pos + size →
      b.readRaw size = (.error .outOfRange, b) ∧
      b.readString size = (.error .outOfRange, b) ∧
      b.readByteArray size = (.error .outOfRange, b) ∧
      b.readFixed size = (.error .outOfRange, b)) ∧
    (b.data.length < SIZE_T_MOD → SIZE_T_MOD ≤ b.pos + size →
      (b.readRaw size).2 = b ∧ ∃ e, (b.readRaw size).1 = .error e) ∧
    (b.pos ≤ b.data.length →
      (b.readRaw size).2.pos ≤ (b.readRaw size).2.data.length ∧
      ∀ p : Nat, (b.seek p).2.pos ≤ (b.seek p).2.data.length) := by
  refine ⟨fun hm h => ?_, fun hm h => ?_, fun hlen hw => ?_, fun h => ⟨?_, fun p => ?_⟩⟩
  · rw [ByteBuffer.readString, ByteBuffer.readByteArray, ByteBuffer.readFixed,
      readRaw_success b size h hm]
    exact ⟨rfl, rfl, rfl, rfl⟩
  · rw [ByteBuffer.readString, ByteBuffer.readByteArray, ByteBuffer.readFixed,
      readRaw_fail b size h hm]
    exact ⟨rfl, rfl, rfl, rfl⟩
  · unfold ByteBuffer.readRaw
    split
    · exact ⟨rfl, .outOfRange, rfl⟩
    · split
      · exfalso
        have hsz : SIZE_T_MOD = 2 ^ 64 := rfl
        omega
      · exact ⟨rfl, .lengthError, rfl⟩
  · unfold ByteBuffer.readRaw
    split
    · exact h
    · split
      · simpa using by omega
      · exact h
  · unfold ByteBuffer.seek
    split
    · exact h
    · simpa using by omega

/-- Witness for C6: the contract applied to the concrete buffer
[10, 20, 30], once for a read that fits and once for one that does
not. -/
theorem byteBuffer_read_contract_witness :
    (⟨[10, 20, 30], 1⟩ : ByteBuffer).readRaw 2 = (.ok [20, 30], ⟨[10, 20, 30], 3⟩) ∧
    (⟨[10, 20, 30], 2⟩ : ByteBuffer).readRaw 2 = (.error .outOfRange, ⟨[10, 20, 30], 2⟩) := by
  constructor
  · have h := ((byteBuffer_read_contract ⟨[10, 20, 30], 1⟩ 2).1 (by decide) (by decide)).1
    simpa using h
  · exact ((byteBuffer_read_contract ⟨[10, 20, 30], 2⟩ 2).2.1 (by decide) (by decide)).1

/-- C6 counterexample: a requested size whose addition to the position
wraps modulo 2^64 (reachable from input: a TagByteArray length of -1
becomes the size_t 2^64 - 1) bypasses the bounds check
position_ + size > data_.size(), and the read then fails with
std::length_error from the oversized allocation — with 16 bytes of data
and position 8, far fewer than the requested 2^64 - 4 bytes remain, yet
the failure is not the OutOfRange the claim prescribes for every
insufficient read. -/
theorem byteBuffer_overflow_bypasses_check :
    (⟨List.replicate 16 0, 8⟩ : ByteBuffer).readRaw (2 ^ 64 - 4)
      = (.error .lengthError, ⟨List.replicate 16 0, 8⟩) ∧
    16 < 8 + (2 ^ 64 - 4) := by
  exact ⟨rfl, by decide⟩
